import Mathlib

/-!
Verification development for the DiscordClipSaver worker pipeline.

The Python sources under `src/python` are shallowly embedded as executable
Lean definitions: pure helpers become Lean functions, stateful handlers
become explicit state-passing functions, database rows become structures,
and machine integers are `Nat`/`Int` with explicit `% 2 ^ 32` where the
source relies on fixed-width arithmetic (the md5 core).  Library calls of
the Python standard library (`hashlib.md5`, `urllib.parse`, `datetime`)
are modelled bit-for-bit where the verified properties depend on them.
-/

namespace ClipSaver

/-! ### Model of `hashlib.md5(...).hexdigest()`

`worker/message/utils.py::generate_clip_id` and
`worker/message/message_handler.py::MessageHandler._generate_clip_id` both
hash the UTF-8 encoding of an f-string with `hashlib.md5` and return the
lowercase hex digest.  The md5 core is implemented here over `Nat` with
explicit reduction modulo `2 ^ 32`. -/

/-- Reduce modulo `2 ^ 32` (32-bit word arithmetic of the md5 core). -/
def m32 (n : Nat) : Nat := n % 4294967296

/-- 32-bit addition. -/
def add32 (a b : Nat) : Nat := (a + b) % 4294967296

/-- 32-bit left rotation by `s` (for `0 < s < 32` and `x < 2 ^ 32`). -/
def rotl32 (x s : Nat) : Nat := (x * 2 ^ s) % 4294967296 + (x % 4294967296) / 2 ^ (32 - s)

/-- The 64 md5 round constants `K[i] = floor(abs(sin(i+1)) * 2^32)`. -/
def md5K : List Nat :=
  [0xd76aa478, 0xe8c7b756, 0x242070db, 0xc1bdceee,
   0xf57c0faf, 0x4787c62a, 0xa8304613, 0xfd469501,
   0x698098d8, 0x8b44f7af, 0xffff5bb1, 0x895cd7be,
   0x6b901122, 0xfd987193, 0xa679438e, 0x49b40821,
   0xf61e2562, 0xc040b340, 0x265e5a51, 0xe9b6c7aa,
   0xd62f105d, 0x02441453, 0xd8a1e681, 0xe7d3fbc8,
   0x21e1cde6, 0xc33707d6, 0xf4d50d87, 0x455a14ed,
   0xa9e3e905, 0xfcefa3f8, 0x676f02d9, 0x8d2a4c8a,
   0xfffa3942, 0x8771f681, 0x6d9d6122, 0xfde5380c,
   0xa4beea44, 0x4bdecfa9, 0xf6bb4b60, 0xbebfbc70,
   0x289b7ec6, 0xeaa127fa, 0xd4ef3085, 0x04881d05,
   0xd9d4d039, 0xe6db99e5, 0x1fa27cf8, 0xc4ac5665,
   0xf4292244, 0x432aff97, 0xab9423a7, 0xfc93a039,
   0x655b59c3, 0x8f0ccc92, 0xffeff47d, 0x85845dd1,
   0x6fa87e4f, 0xfe2ce6e0, 0xa3014314, 0x4e0811a1,
   0xf7537e82, 0xbd3af235, 0x2ad7d2bb, 0xeb86d391]

/-- The md5 per-round left-rotation amounts. -/
def md5S : List Nat :=
  [7, 12, 17, 22, 7, 12, 17, 22, 7, 12, 17, 22, 7, 12, 17, 22,
   5, 9, 14, 20, 5, 9, 14, 20, 5, 9, 14, 20, 5, 9, 14, 20,
   4, 11, 16, 23, 4, 11, 16, 23, 4, 11, 16, 23, 4, 11, 16, 23,
   6, 10, 15, 21, 6, 10, 15, 21, 6, 10, 15, 21, 6, 10, 15, 21]

/-- The md5 nonlinear mixing function of round `i`. -/
def md5F (i b c d : Nat) : Nat :=
  if i < 16 then (b &&& c) ||| ((b ^^^ 0xffffffff) &&& d)
  else if i < 32 then (d &&& b) ||| ((d ^^^ 0xffffffff) &&& c)
  else if i < 48 then b ^^^ c ^^^ d
  else c ^^^ (b ||| (d ^^^ 0xffffffff))

/-- The md5 message-word index used by round `i`. -/
def md5G (i : Nat) : Nat :=
  if i < 16 then i
  else if i < 32 then (5 * i + 1) % 16
  else if i < 48 then (3 * i + 5) % 16
  else (7 * i) % 16

/-- One md5 round on the state `(a, b, c, d)` with message words `M`. -/
def md5Round (M : List Nat) (st : Nat × Nat × Nat × Nat) (i : Nat) : Nat × Nat × Nat × Nat :=
  match st with
  | (a, b, c, d) =>
    let f := (md5F i b c d + a + md5K.getD i 0 + M.getD (md5G i) 0) % 4294967296
    (d, add32 b (rotl32 f (md5S.getD i 0)), b, c)

/-- Process one 64-byte block (given as 16 little-endian words). -/
def md5Block (st : Nat × Nat × Nat × Nat) (M : List Nat) : Nat × Nat × Nat × Nat :=
  match st, (List.range 64).foldl (md5Round M) st with
  | (a0, b0, c0, d0), (a, b, c, d) => (add32 a a0, add32 b b0, add32 c c0, add32 d d0)

/-- Group a list of bytes into little-endian 32-bit words. -/
def leWords : List Nat → List Nat
  | b0 :: b1 :: b2 :: b3 :: rest => (b0 + 256 * b1 + 65536 * b2 + 16777216 * b3) :: leWords rest
  | _ => []

/-- Split a byte list into 64-byte chunks. -/
def chunks64 (l : List Nat) : List (List Nat) :=
  if h : l = [] then [] else
    l.take 64 :: chunks64 (l.drop 64)
termination_by l.length
decreasing_by
  simp only [List.length_drop]
  exact Nat.sub_lt (List.length_pos.mpr h) (by omega)

/-- The `n` little-endian bytes of `value`. -/
def leBytes (n value : Nat) : List Nat :=
  match n with
  | 0 => []
  | k + 1 => value % 256 :: leBytes k (value / 256)

/-- md5 padding: `0x80`, zeros to 56 mod 64, then the 64-bit LE bit length. -/
def md5Pad (msg : List Nat) : List Nat :=
  msg ++ 128 :: List.replicate ((55 + 64 - msg.length % 64) % 64) 0 ++ leBytes 8 (8 * msg.length)

/-- The 16-byte md5 digest of a byte string. -/
def md5Bytes (msg : List Nat) : List Nat :=
  match (chunks64 (md5Pad msg)).foldl (fun st blk => md5Block st (leWords blk))
      (0x67452301, 0xefcdab89, 0x98badcfe, 0x10325476) with
  | (a, b, c, d) => leBytes 4 a ++ leBytes 4 b ++ leBytes 4 c ++ leBytes 4 d

/-- Lowercase hex digit for `n < 16` (as in Python's `hexdigest`). -/
def hexDigitChar (n : Nat) : Char :=
  if n < 10 then Char.ofNat (48 + n) else Char.ofNat (87 + n)

/-- Lowercase hex rendering of a byte string, two digits per byte. -/
def bytesToHex (bs : List Nat) : String :=
  String.mk (bs.flatMap fun b => [hexDigitChar (b / 16 % 16), hexDigitChar (b % 16)])

/-- The model of `hashlib.md5(data).hexdigest()`. -/
def md5Hex (msg : List Nat) : String := bytesToHex (md5Bytes msg)

/-! ### Model of `str.encode()` (UTF-8) -/

/-- UTF-8 encoding of a single code point. -/
def utf8EncodeChar (c : Char) : List Nat :=
  let n := c.toNat
  if n < 128 then [n]
  else if n < 2048 then [192 + n / 64, 128 + n % 64]
  else if n < 65536 then [224 + n / 4096, 128 + n / 64 % 64, 128 + n % 64]
  else [240 + n / 262144, 128 + n / 4096 % 64, 128 + n / 64 % 64, 128 + n % 64]

/-- UTF-8 encoding of a string, the model of Python's `str.encode()`. -/
def utf8Encode (s : String) : List Nat := s.data.flatMap utf8EncodeChar

/-! ### The two clip-fingerprint implementations (claim C10)

`worker/message/utils.py::generate_clip_id` and
`worker/message/message_handler.py::MessageHandler._generate_clip_id`
each build `f"{message_id}:{channel_id}:{filename}:{timestamp.isoformat()}"`
and md5-hex it.  `datetime.isoformat` is a standard-library call shared by
both; it is modelled as an abstract field of the datetime value, which is
sound because both call sites invoke the identical library function on the
identical argument. -/

/-- Model of a Python `datetime` as seen by the fingerprint code: only its
`isoformat()` rendering is consumed. -/
structure PyDatetime where
  isoformatRepr : String
deriving DecidableEq

/-- Model of `datetime.isoformat()`. -/
def PyDatetime.isoformat (d : PyDatetime) : String := d.isoformatRepr

/-- Embedding of `worker/message/utils.py::generate_clip_id`. -/
def generate_clip_id (messageId channelId filename : String) (timestamp : PyDatetime) : String :=
  md5Hex (utf8Encode (messageId ++ ":" ++ channelId ++ ":" ++ filename ++ ":" ++ timestamp.isoformat))

/-- Embedding of `worker/message/message_handler.py::MessageHandler._generate_clip_id`. -/
def MessageHandler_generate_clip_id (messageId channelId filename : String) (timestamp : PyDatetime) : String :=
  md5Hex (utf8Encode (messageId ++ ":" ++ channelId ++ ":" ++ filename ++ ":" ++ timestamp.isoformat))

/-- The lowercase hexadecimal alphabet. -/
def hexAlphabet : List Char := "0123456789abcdef".data

/-! ### Model of `urllib.parse` query parsing and `int(s, 16)` (claim C4)

`worker/message/utils.py::extract_cdn_expiry` runs
`urllib.parse.parse_qs(urllib.parse.urlparse(url).query)`, reads the first
`ex` value, decodes it with `int(value, 16)` and converts it with
`datetime.fromtimestamp(ts, timezone.utc)`, falling back to `now + 24h`
when the parameter is missing or either conversion raises.  All string
work is done on character lists so every definition reduces in the kernel. -/

/-- Python `str.split(sep)` for a one-character separator (`"" → [""]`). -/
def splitOnChar (sep : Char) : List Char → List (List Char)
  | [] => [[]]
  | c :: rest =>
    let r := splitOnChar sep rest
    if c = sep then [] :: r
    else
      match r with
      | h :: t => (c :: h) :: t
      | [] => [[c]]

/-- Join chunks with a one-character separator (inverse of a split). -/
def joinWithChar (sep : Char) : List (List Char) → List Char
  | [] => []
  | [x] => x
  | x :: xs => x ++ sep :: joinWithChar sep xs

/-- ASCII whitespace stripped by `int()` (Python also strips some Unicode
space code points, which are not modelled; no verified property uses them). -/
def pyWhitespace (c : Char) : Bool :=
  c = ' ' || c = '\t' || c = '\n' || c = '\r' || c.toNat == 11 || c.toNat == 12

/-- The value of an ASCII hexadecimal digit. -/
def hexVal (c : Char) : Option Nat :=
  if '0' ≤ c ∧ c ≤ '9' then some (c.toNat - 48)
  else if 'a' ≤ c ∧ c ≤ 'f' then some (c.toNat - 87)
  else if 'A' ≤ c ∧ c ≤ 'F' then some (c.toNat - 55)
  else none

/-- Model of `urllib.parse.unquote` restricted to single-byte escapes: a
`%hh` escape with two hex digits becomes the character with that byte
value; malformed escapes stay verbatim.  (CPython reassembles multi-byte
UTF-8 escape runs into code points; both models agree on ASCII escapes,
and non-ASCII escapes yield non-hex-digit characters either way, which is
all the verified properties depend on.) -/
def percentDecode : List Char → List Char
  | '%' :: h1 :: h2 :: rest =>
    match hexVal h1, hexVal h2 with
    | some v1, some v2 => Char.ofNat (16 * v1 + v2) :: percentDecode rest
    | _, _ => '%' :: percentDecode (h1 :: h2 :: rest)
  | c :: rest => c :: percentDecode rest
  | [] => []

/-- Model of `unquote(s.replace('+', ' '))` as `parse_qsl` applies it. -/
def unquotePlus (cs : List Char) : List Char :=
  percentDecode (cs.map fun c => if c = '+' then ' ' else c)

/-- One `name=value` chunk as `parse_qsl` treats it with `keep_blank_values`
false: chunks without `=` and chunks with an empty value are dropped; the
split is at the first `=`; names and values are plus/percent-decoded. -/
def parseQsPair (chunk : List Char) : Option (List Char × List Char) :=
  match splitOnChar '=' chunk with
  | [] => none
  | [_] => none
  | name :: rest =>
    let value := joinWithChar '=' rest
    if value = [] then none
    else some (unquotePlus name, unquotePlus value)

/-- Model of `urllib.parse.parse_qsl(query)` (ordered pair list; `parse_qs`
groups it into a dict of value lists in this order). -/
def parseQsl (query : List Char) : List (List Char × List Char) :=
  (splitOnChar '&' query).filterMap parseQsPair

/-- First value of parameter `key`: the model of `parse_qs(q)[key][0]`
(present iff the key occurs, i.e. iff `key in parse_qs(q)`). -/
def firstParam (query key : List Char) : Option (List Char) :=
  (((parseQsl query).filter fun p => p.1 = key).head?).map (·.2)

/-- The query component of a URL as `urllib.parse.urlparse` extracts it:
the text after the first `?` of the part before the first `#`. -/
def urlQuery (url : List Char) : List Char :=
  match splitOnChar '?' ((splitOnChar '#' url).headD []) with
  | [] => []
  | [_] => []
  | _ :: rest => joinWithChar '?' rest

/-- Hex digits with single underscores strictly between digits, the digit
run grammar of CPython's `int(s, 16)`. -/
def pyHexRun (acc : Nat) : List Char → Option Nat
  | [] => some acc
  | '_' :: c :: rest =>
    match hexVal c with
    | some v => pyHexRun (16 * acc + v) rest
    | none => none
  | ['_'] => none
  | c :: rest =>
    match hexVal c with
    | some v => pyHexRun (16 * acc + v) rest
    | none => none

/-- A nonempty underscore-grouped hex digit run starting with a digit. -/
def pyIntHexDigits (cs : List Char) : Option Nat :=
  match cs with
  | [] => none
  | c :: rest =>
    match hexVal c with
    | some v => pyHexRun v rest
    | none => none

/-- After the optional sign: optional `0x`/`0X` prefix (one underscore may
directly follow the prefix), then the digit run. -/
def pyIntHexUnsigned (cs : List Char) : Option Nat :=
  match cs with
  | '0' :: x :: rest =>
    if x = 'x' ∨ x = 'X' then
      match rest with
      | '_' :: rest2 => pyIntHexDigits rest2
      | _ => pyIntHexDigits rest
    else pyIntHexDigits ('0' :: x :: rest)
  | _ => pyIntHexDigits cs

/-- Model of CPython `int(s, 16)`: optional surrounding whitespace, optional
single sign, optional `0x` prefix, underscore-grouped hex digits; `none`
models the `ValueError` the caller catches.  (CPython additionally accepts
non-ASCII decimal-digit code points, not modelled.) -/
def pyIntHex (cs : List Char) : Option Int :=
  let t := ((cs.dropWhile fun c => pyWhitespace c).reverse.dropWhile fun c => pyWhitespace c).reverse
  match t with
  | '+' :: rest => (pyIntHexUnsigned rest).map fun n => (n : Int)
  | '-' :: rest => (pyIntHexUnsigned rest).map fun n => -(n : Int)
  | _ => (pyIntHexUnsigned t).map fun n => (n : Int)

/-- Unix seconds of `0001-01-01T00:00:00Z`, the smallest aware `datetime`. -/
def datetimeMinTs : Int := -62135596800

/-- Unix seconds of `9999-12-31T23:59:59Z`, the largest whole-second aware
`datetime`. -/
def datetimeMaxTs : Int := 253402300799

/-- Model of `datetime.fromtimestamp(t, timezone.utc)` on integer seconds:
yields the timestamp when the result is representable (year 1..9999) and
fails (`ValueError`/`OverflowError`, both caught by the caller) otherwise.
Datetimes are modelled as integer Unix seconds UTC throughout. -/
def fromtimestampUTC (t : Int) : Option Int :=
  if datetimeMinTs ≤ t ∧ t ≤ datetimeMaxTs then some t else none

/-- Embedding of `worker/message/utils.py::extract_cdn_expiry`.  `now` is
`datetime.now(timezone.utc)` in Unix seconds; the result is the expiry in
Unix seconds (`now + 86400` is the `now + timedelta(hours=24)` fallback). -/
def extract_cdn_expiry (cdnUrl : String) (now : Int) : Int :=
  match firstParam (urlQuery cdnUrl.data) ['e', 'x'] with
  | some v =>
    match pyIntHex v with
    | some ts =>
      match fromtimestampUTC ts with
      | some t => t
      | none => now + 86400
    | none => now + 86400
  | none => now + 86400

/-- Claim-level view: the `ex` parameter of a CDN URL decoded as a Python
hexadecimal integer, when both steps succeed. -/
def exTimestamp (url : String) : Option Int :=
  (firstParam (urlQuery url.data) ['e', 'x']).bind pyIntHex

/-! ### Thumbnail failure/backoff state machine (claims C3, C7)

Embedding of `worker/thumbnail/thumbnail_handler.py`.  A clip's
thumbnail-relevant database state is its `thumbnail_status` column together
with the (at most one, unique per clip) `FailedThumbnail` row. -/

/-- A `FailedThumbnail` row (`shared/db/models.py`), times in Unix seconds. -/
structure FailedThumbnailRow where
  errorMessage : String
  retryCount : Nat
  lastAttemptedAt : Int
  nextRetryAt : Int
deriving DecidableEq

/-- The `backoff_minutes` table of `ThumbnailHandler._record_failure`. -/
def backoffMinutes : List Nat := [5, 15, 60, 240, 720, 1440]

/-- Embedding of `ThumbnailHandler._record_failure`: create the row with
`retry_count = 1` and a 5-minute delay, or bump `retry_count` and apply the
clamped backoff table. -/
def recordFailure (now : Int) (errorMessage : String) :
    Option FailedThumbnailRow → FailedThumbnailRow
  | some existing =>
    let retryCount := existing.retryCount + 1
    let delayMinutes := backoffMinutes.getD (min (retryCount - 1) (backoffMinutes.length - 1)) 0
    { errorMessage := errorMessage
      retryCount := retryCount
      lastAttemptedAt := now
      nextRetryAt := now + (delayMinutes : Int) * 60 }
  | none =>
    { errorMessage := errorMessage
      retryCount := 1
      lastAttemptedAt := now
      nextRetryAt := now + 5 * 60 }

/-- Thumbnail-relevant state of one clip. -/
structure ClipThumbState where
  thumbnailStatus : String
  failedRow : Option FailedThumbnailRow
deriving DecidableEq

/-- Outcome of one attempt of the media pipeline for a clip, an input of the
embedding (downloads, ffmpeg and storage are external). -/
inductive ThumbOutcome where
  | alreadyDone
  | success
  | failure (errorMessage : String)
deriving DecidableEq

/-- Embedding of `ThumbnailHandler.process_clip`: returns the `bool` result
and the clip state afterwards.  `alreadyDone` is the early return when both
thumbnail files exist and the status is already `completed`; `success` runs
the pipeline and marks the clip `completed`; `failure` marks it `failed`
and upserts the `FailedThumbnail` row.  No branch of the source touches an
existing `FailedThumbnail` row on success. -/
def processClip (now : Int) (outcome : ThumbOutcome) (st : ClipThumbState) :
    Bool × ClipThumbState :=
  match outcome with
  | .alreadyDone => (true, st)
  | .success => (true, { st with thumbnailStatus := "completed" })
  | .failure err =>
    (false, { thumbnailStatus := "failed", failedRow := some (recordFailure now err st.failedRow) })

/-- Embedding of one iteration of `ThumbnailHandler.retry_failed_thumbnails`
on a due `FailedThumbnail` row: run `process_clip`, and delete the row iff
it returned `True`. -/
def retryFailedThumbnail (now : Int) (outcome : ThumbOutcome) (st : ClipThumbState) :
    ClipThumbState :=
  match processClip now outcome st with
  | (true, st') => { st' with failedRow := none }
  | (false, st') => st'

/-- The claim's backoff function in seconds: the table `[5m, 15m, 1h, 4h,
12h, 24h]` indexed by `retry_count`, clamped to the last element. -/
def backoffSeconds (retryCount : Nat) : Int :=
  (backoffMinutes.getD (min (retryCount - 1) (backoffMinutes.length - 1)) 0 : Int) * 60

/-! ### Settings resolver (claim C6)

Embedding of `shared/settings_resolver.py`.  Settings dictionaries are JSON
objects; the values that occur for the recognized keys are strings, string
lists, booleans and `null`, which the `SettingValue` type covers. -/

/-- A JSON settings value as stored in the `GuildSettings`/`ChannelSettings`
JSON columns. -/
inductive SettingValue where
  | vStr (s : String)
  | vStrList (l : List String)
  | vBool (b : Bool)
  | vNone
deriving DecidableEq

/-- A JSON settings object. -/
abbrev SettingsDict := List (String × SettingValue)

/-- Python `d.get(key)`: the stored value of `key` (a dict has unique keys;
for a list with duplicates the last write wins, as in `dict(...)`). -/
def dictGet (d : SettingsDict) (key : String) : Option SettingValue :=
  (d.reverse.find? fun p => p.1 == key).map (·.2)

/-- Python `dict(base)` followed by `.update(overlay)`: shallow merge, keys
of `overlay` override `base`. -/
def dictUpdate (base overlay : SettingsDict) : SettingsDict := base ++ overlay

/-- The hard-coded `allowed_mime_types` default of `ResolvedSettings`. -/
def systemDefaultMimeTypes : List String :=
  ["video/mp4", "video/quicktime", "video/webm", "video/x-msvideo"]

/-- The resolved effective settings (`ResolvedSettings` in the source). -/
structure ResolvedSettings where
  allowedMimeTypes : List String
  matchRegex : Option String
  enableMessageContentStorage : Bool
deriving DecidableEq

/-- Embedding of `ResolvedSettings.__init__`: extract the three recognized
keys with `dict.get` defaults (`match_regex` stored as JSON `null` resolves
to no filter, exactly as Python's `None`). -/
def mkResolvedSettings (d : SettingsDict) : ResolvedSettings :=
  { allowedMimeTypes :=
      match dictGet d "allowed_mime_types" with
      | some (.vStrList l) => l
      | some _ => systemDefaultMimeTypes
      | none => systemDefaultMimeTypes
    matchRegex :=
      match dictGet d "match_regex" with
      | some (.vStr s) => some s
      | some _ => none
      | none => none
    enableMessageContentStorage :=
      match dictGet d "enable_message_content_storage" with
      | some (.vBool b) => b
      | some _ => true
      | none => true }

/-- Embedding of `shared/settings_resolver.py::get_channel_settings` (the
database-resolution path; the TTL cache replays a previously resolved value
unchanged and is not modelled).  The arguments are the relevant database
contents: `GuildSettings.default_channel_settings`, `GuildSettings.settings`
and `ChannelSettings.settings` (`none` models a missing row or SQL NULL).
The source never reads `GuildSettings.settings`, so `guildSettings` is
unused — which is what claim C6 is about. -/
def get_channel_settings (guildDefaultChannelSettings : Option SettingsDict)
    (guildSettings : Option SettingsDict)
    (channelSettings : Option SettingsDict) : ResolvedSettings :=
  let merged :=
    match guildDefaultChannelSettings with
    | some gd => gd
    | none => []
  let merged2 :=
    match channelSettings with
    | some cs => dictUpdate merged cs
    | none => merged
  mkResolvedSettings merged2

/-- The system-defaults layer as a settings dict (spec §4.3's
`system_defaults`: the defaults `ResolvedSettings` applies). -/
def systemDefaultsDict : SettingsDict :=
  [("allowed_mime_types", .vStrList systemDefaultMimeTypes),
   ("match_regex", .vNone),
   ("enable_message_content_storage", .vBool true)]

/-- Modelled from the spec: the four-layer merge `system_defaults ⊕
guild.default_channel_settings ⊕ guild.settings ⊕ channel.settings`
(left-to-right override, shallow merge) that claim C6 asserts
`get_channel_settings` computes. -/
def specFourLayerSettings (guildDefaultChannelSettings guildSettings channelSettings :
    Option SettingsDict) : ResolvedSettings :=
  mkResolvedSettings
    (dictUpdate
      (dictUpdate
        (dictUpdate systemDefaultsDict (guildDefaultChannelSettings.getD []))
        (guildSettings.getD []))
      (channelSettings.getD []))

/-- Modelled from the spec (amended): the three-layer merge `system_defaults
⊕ guild.default_channel_settings ⊕ channel.settings`. -/
def specThreeLayerSettings (guildDefaultChannelSettings channelSettings :
    Option SettingsDict) : ResolvedSettings :=
  mkResolvedSettings
    (dictUpdate
      (dictUpdate systemDefaultsDict (guildDefaultChannelSettings.getD []))
      (channelSettings.getD []))

/-! ### Message filtering and clip extraction (claims C5, C9)

Embedding of `worker/message/validators.py`, `clip_metadata.py`,
`batch_context.py` and `batch_processor.py`.  Snowflakes appear here only
as their `str(...)` renderings, so message ids are strings. -/

/-- A Discord attachment as the worker reads it. -/
structure Attachment where
  filename : String
  contentType : Option String
  size : Nat
  url : String
deriving DecidableEq

/-- A Discord message as the worker reads it (`id` and `author.id` as their
`str(...)` renderings; `created_at` is consumed only through `isoformat`). -/
structure DiscordMessage where
  id : String
  authorId : String
  content : Option String
  createdAt : PyDatetime
  attachments : List Attachment
deriving DecidableEq

/-- Whether `needle` occurs as a contiguous run of `haystack`. -/
def containsSub (needle : List Char) : List Char → Bool
  | [] => needle.isEmpty
  | c :: rest => needle.isPrefixOf (c :: rest) || containsSub needle rest

/-- Model of `re.search(pattern, content)` truthiness for metacharacter-free
patterns: substring containment.  (A general regex engine is not embedded;
every verified property instantiates `match_regex` either generically or
with a literal pattern, on which `re.search` is exactly substring
search.) -/
def reSearchLiteral (pattern content : String) : Bool :=
  containsSub pattern.data content.data

/-- Embedding of `validators.py::matches_regex_filter`: no pattern (Python
`None` or the falsy empty string) matches everything; missing content is
treated as the empty string. -/
def matches_regex_filter (msg : DiscordMessage) (regexPattern : Option String) : Bool :=
  match regexPattern with
  | none => true
  | some p => if p = "" then true else reSearchLiteral p (msg.content.getD "")

/-- The extension fallback set of `validators.py::is_video_attachment`. -/
def videoExtensions : List (List Char) :=
  [".mp4".data, ".mov".data, ".webm".data, ".avi".data, ".mkv".data, ".flv".data, ".wmv".data]

/-- Embedding of `validators.py::is_video_attachment`: MIME-type membership
when `content_type` is truthy, else (or additionally) a known video file
extension on the lowercased filename. -/
def is_video_attachment (att : Attachment) (allowedMimeTypes : List String) : Bool :=
  (match att.contentType with
   | some ct => !(ct = "") && allowedMimeTypes.contains ct
   | none => false)
  || videoExtensions.any fun ext => ext.isSuffixOf (att.filename.data.map Char.toLower)

/-- Embedding of `validators.py::filter_video_attachments`. -/
def filter_video_attachments (attachments : List Attachment)
    (allowedMimeTypes : List String) : List Attachment :=
  attachments.filter fun att => is_video_attachment att allowedMimeTypes

/-- Embedding of `validators.py::should_process_message`: has attachments,
passes the regex filter, and has at least one video attachment.  The batch
processor imports this function but never calls it. -/
def should_process_message (msg : DiscordMessage) (settings : ResolvedSettings) : Bool :=
  !msg.attachments.isEmpty
    && matches_regex_filter msg settings.matchRegex
    && !(filter_video_attachments msg.attachments settings.allowedMimeTypes).isEmpty

/-- The `ext → MIME` table of `utils.py::guess_mime_type`. -/
def mimeByExtension : List (List Char × String) :=
  [("mp4".data, "video/mp4"), ("webm".data, "video/webm"),
   ("mov".data, "video/quicktime"), ("avi".data, "video/x-msvideo"),
   ("mkv".data, "video/x-matroska"), ("flv".data, "video/x-flv"),
   ("m4v".data, "video/x-m4v")]

/-- Embedding of `utils.py::guess_mime_type`:
`filename.lower().split('.')[-1]` looked up, defaulting to `video/mp4`. -/
def guess_mime_type (filename : String) : String :=
  let ext := (splitOnChar '.' (filename.data.map Char.toLower)).getLastD []
  ((mimeByExtension.find? fun p => p.1 == ext).map (·.2)).getD "video/mp4"

/-- Embedding of `utils.py::get_mime_type`: `attachment.content_type or
guess_mime_type(filename)` (falsy `content_type` falls back). -/
def get_mime_type (att : Attachment) (filename : String) : String :=
  match att.contentType with
  | some ct => if ct = "" then guess_mime_type filename else ct
  | none => guess_mime_type filename

/-- `clip_metadata.py::ClipInfo`. -/
structure ClipInfo where
  clipId : String
  messageId : String
  filename : String
  fileSize : Nat
  mimeType : String
  cdnUrl : String
  expiresAt : Int
deriving DecidableEq

/-- Embedding of `clip_metadata.py::extract_clip_info` (`now` feeds the
`extract_cdn_expiry` fallback). -/
def extract_clip_info (att : Attachment) (msg : DiscordMessage) (channelId : String)
    (now : Int) : ClipInfo :=
  { clipId := generate_clip_id msg.id channelId att.filename msg.createdAt
    messageId := msg.id
    filename := att.filename
    fileSize := att.size
    mimeType := get_mime_type att att.filename
    cdnUrl := att.url
    expiresAt := extract_cdn_expiry att.url now }

/-- Embedding of `clip_metadata.py::extract_clips_from_message`: filter to
video attachments, then extract clip info for each.  Faithful to the
source, the message content and `match_regex` are nowhere consulted. -/
def extract_clips_from_message (msg : DiscordMessage) (channelId : String)
    (settings : ResolvedSettings) (now : Int) : List ClipInfo :=
  (filter_video_attachments msg.attachments settings.allowedMimeTypes).map
    fun att => extract_clip_info att msg channelId now

/-- Embedding of `clip_metadata.py::build_clip_id_map`: message id → clip
list, keeping only messages with at least one extracted clip. -/
def build_clip_id_map (messages : List DiscordMessage) (channelId : String)
    (settings : ResolvedSettings) (now : Int) : List (String × List ClipInfo) :=
  messages.filterMap fun msg =>
    match extract_clips_from_message msg channelId settings now with
    | [] => none
    | clips => some (msg.id, clips)

/-! ### The `add_clip` keyword mismatch and batch control flow (claim C9) -/

/-- Python keyword binding: a call raises `TypeError` when a keyword is not
among the callee's parameter names. -/
def unexpectedKeyword (parameters keywords : List String) : Bool :=
  keywords.any fun k => !parameters.contains k

/-- The parameters of `BatchContext.add_clip` (`batch_context.py`, after
`self`). -/
def addClipParams : List String :=
  ["clip_id", "message_id", "filename", "file_size", "mime_type", "cdn_url",
   "expires_at", "thumbnail_status"]

/-- The keywords `_collect_message_data` passes to `context.add_clip`
(`batch_processor.py`). -/
def collectAddClipKeywords : List String :=
  ["clip_id", "message_id", "author_id", "filename", "file_size", "mime_type",
   "cdn_url", "expires_at", "thumbnail_status"]

/-- An exception as the embedding raises it. -/
inductive PyError where
  | typeError
deriving DecidableEq

/-- The `context.add_clip(clip_id=..., author_id=..., ...)` call exactly as
`_collect_message_data` writes it: keyword binding happens before the body
would run. -/
def callAddClip : Except PyError Unit :=
  if unexpectedKeyword addClipParams collectAddClipKeywords then
    Except.error .typeError
  else Except.ok ()

/-- One loop iteration of `BatchMessageProcessor._collect_message_data`:
messages absent from the clip map are skipped; otherwise the message row is
recorded (its id accumulated) and `context.add_clip` is invoked once per
clip of the message. -/
def collectStep (clipMap : List (String × List ClipInfo)) (acc : List String)
    (msg : DiscordMessage) : Except PyError (List String) :=
  match clipMap.find? fun p => p.1 == msg.id with
  | none => Except.ok acc
  | some (_, clips) =>
    clips.foldlM (fun acc2 _ => do
      let _ ← callAddClip
      Except.ok acc2) (acc ++ [msg.id])

/-- Embedding of `BatchMessageProcessor._collect_message_data`: walk the
messages; the first raised error aborts the walk.  Returns the ids of the
recorded messages. -/
def collect_message_data (messages : List DiscordMessage)
    (clipMap : List (String × List ClipInfo)) : Except PyError (List String) :=
  messages.foldlM (collectStep clipMap) []

/-- A database-side effect of one batch run, in execution order. -/
inductive BatchEffect where
  | loadExistingClips
  | bulkUpsertAuthors
  | bulkUpsertMessages
  | bulkUpsertClips
  | generateThumbnails
deriving DecidableEq

/-- Embedding of `BatchMessageProcessor.process_messages_batch` control
flow: empty batches return immediately; otherwise the clip map is built,
existing clips are bulk-loaded, authors are collected from the cache,
`_collect_message_data` runs, and only then the three bulk upserts and
thumbnail generation execute.  Returns the effects executed in order
together with `(clips_found, thumbnails_generated)` or the raised error. -/
def process_messages_batch (messages : List DiscordMessage) (channelId : String)
    (settings : ResolvedSettings) (now : Int) :
    List BatchEffect × Except PyError (Nat × Nat) :=
  if messages.isEmpty then ([], Except.ok (0, 0))
  else
    let clipMap := build_clip_id_map messages channelId settings now
    match collect_message_data messages clipMap with
    | Except.error e => ([BatchEffect.loadExistingClips], Except.error e)
    | Except.ok _ =>
      ([BatchEffect.loadExistingClips, .bulkUpsertAuthors, .bulkUpsertMessages,
        .bulkUpsertClips, .generateThumbnails],
       Except.ok ((clipMap.map fun p => p.2.length).sum, 0))

/-- Whether some message of the batch has an entry (with at least one clip)
in the clip map — exactly when `_collect_message_data` reaches an
`add_clip` call. -/
def hitsAddClip (messages : List DiscordMessage)
    (clipMap : List (String × List ClipInfo)) : Bool :=
  messages.any fun msg =>
    match clipMap.find? fun p => p.1 == msg.id with
    | some (_, _ :: _) => true
    | _ => false

/-- Concrete batch settings: a configured `match_regex` that the concrete
message below does not satisfy. -/
def cexSettings : ResolvedSettings :=
  { allowedMimeTypes := systemDefaultMimeTypes
    matchRegex := some "!clip"
    enableMessageContentStorage := true }

/-- Concrete message: content not matching the regex, with one mp4 video
attachment. -/
def cexMessage : DiscordMessage :=
  { id := "111222333"
    authorId := "42"
    content := some "hello world"
    createdAt := ⟨"2024-01-02T03:04:05+00:00"⟩
    attachments := [{ filename := "funny.mp4"
                      contentType := some "video/mp4"
                      size := 1234
                      url := "https://cdn.discordapp.com/attachments/1/2/funny.mp4?ex=66aabbcc&is=1&hm=2" }] }

/-! ### Bulk clip upsert (claim C8)

Embedding of `shared/db/repositories/bulk_operations.py::bulk_upsert_clips`:
`INSERT ... ON CONFLICT (id) DO UPDATE` sets every non-immutable column
from the incoming row; `execute_many` applies the statement to each row of
the batch in order.  `created_at`/`updated_at` are server-clock columns
outside the payload. -/

/-- The payload columns of one clip row. -/
structure ClipPayload where
  messageId : String
  guildId : String
  channelId : String
  filename : String
  fileSize : Nat
  mimeType : String
  cdnUrl : String
  expiresAt : Int
  thumbnailStatus : String
  settingsHash : String
deriving DecidableEq

/-- The clip table keyed by primary key `id`. -/
def ClipTable := String → Option ClipPayload

/-- One row of the upsert statement: insert, or overwrite all payload
columns on primary-key conflict. -/
def upsertClipRow (t : ClipTable) (row : String × ClipPayload) : ClipTable :=
  fun k => if k = row.1 then some row.2 else t k

/-- Embedding of `bulk_upsert_clips`: apply the statement per row in batch
order. -/
def bulk_upsert_clips (t : ClipTable) (batch : List (String × ClipPayload)) : ClipTable :=
  batch.foldl upsertClipRow t

/-- A sequence of `bulk_upsert_clips` calls. -/
def runClipBatches (t : ClipTable) (batches : List (List (String × ClipPayload))) : ClipTable :=
  batches.foldl bulk_upsert_clips t

/-- The everywhere-empty clip table. -/
def emptyClipTable : ClipTable := fun _ => none

/-- A concrete payload for the C8 witness. -/
def wPayload (tag : String) : ClipPayload :=
  { messageId := tag, guildId := "g", channelId := "c", filename := tag ++ ".mp4"
    fileSize := 10, mimeType := "video/mp4", cdnUrl := "https://c.d/" ++ tag
    expiresAt := 100, thumbnailStatus := "pending", settingsHash := "h" }

/-! ### Scan scheduler (claims C1, C2)

Embedding of `worker/processor.py::JobProcessor.process_batch_scan`
(lines 142–427) as a pure transition on the `ChannelScanStatus` row, with
the external collaborators (validation flags, Discord history fetch,
existing-message query, batch processor, queue client) as explicit inputs.
Snowflake ids are `Nat`: snowflake order is numeric order. -/

/-- `shared/db/models.py::ScanStatus`. -/
inductive ScanStatus where
  | queued
  | running
  | succeeded
  | failed
  | cancelled
deriving DecidableEq

/-- Scan direction (`BatchScanJob.direction`). -/
inductive ScanDirection where
  | backward
  | forward
deriving DecidableEq

/-- Rescan policy (`BatchScanJob.rescan`). -/
inductive RescanMode where
  | stop
  | cont
  | update
deriving DecidableEq

/-- `shared/redis/redis.py::BatchScanJob` (scheduler-relevant fields). -/
structure BatchScanJob where
  direction : ScanDirection
  limit : Nat
  beforeMessageId : Option Nat
  afterMessageId : Option Nat
  autoContinue : Bool
  rescan : RescanMode
deriving DecidableEq

/-- The `ChannelScanStatus` row (scheduler-relevant fields). -/
structure ChannelScanStatusRow where
  status : ScanStatus
  forwardMessageId : Option Nat
  backwardMessageId : Option Nat
  messageCount : Nat
  totalMessagesScanned : Nat
  errorMessage : Option String
deriving DecidableEq

/-- Embedding of `channel_scan_status.py::update_scan_status`: `none`
arguments leave their column unchanged; the error message carries an
explicit provided-flag modelling the `...` sentinel (provided `none`
clears it). -/
def update_scan_status (row : ChannelScanStatusRow) (status : Option ScanStatus)
    (fwd bwd : Option Nat) (messageCount totalMessagesScanned : Option Nat)
    (errorProvided : Bool) (errorMessage : Option String) : ChannelScanStatusRow :=
  { status := status.getD row.status
    forwardMessageId := match fwd with | some f => some f | none => row.forwardMessageId
    backwardMessageId := match bwd with | some b => some b | none => row.backwardMessageId
    messageCount := messageCount.getD row.messageCount
    totalMessagesScanned := totalMessagesScanned.getD row.totalMessagesScanned
    errorMessage := if errorProvided then errorMessage else row.errorMessage }

/-- Embedding of `channel_scan_status.py::increment_scan_counts` (the
`if n > 0` guards add zero otherwise, which is the same). -/
def increment_scan_counts (row : ChannelScanStatusRow)
    (messagesScanned clipsFound : Nat) : ChannelScanStatusRow :=
  { row with
    totalMessagesScanned := row.totalMessagesScanned + messagesScanned
    messageCount := row.messageCount + clipsFound }

/-- External collaborator outcomes of one `process_batch_scan` run:
`scanEnabled` is the `validate_scan_enabled` verdict, `fetchResult` the
channel fetch plus `get_message_history` outcome (`.error` models the
caught Discord exceptions, the page is newest-first for backward scans and
oldest-first for forward scans), `existingMessageIds` the message ids
already stored for this channel, `batchOk`/`clipsFound` the
`process_messages_batch` outcome, and `hasRedisClient` whether the
processor holds a queue client (`worker/main.py` always passes one). -/
structure ScanEnv where
  scanEnabled : Bool
  disabledReason : String
  fetchResult : Except String (List Nat)
  existingMessageIds : List Nat
  batchOk : Bool
  clipsFound : Nat
  hasRedisClient : Bool

/-- The rescan-policy filtering of the fetched page (`processor.py` lines
250–302): already-stored ids are dropped in `stop`/`continue` mode, kept
in `update` mode. -/
def scanMessagesToProcess (env : ScanEnv) (job : BatchScanJob) (page : List Nat) : List Nat :=
  let existingIds := page.filter fun m => env.existingMessageIds.contains m
  if existingIds.isEmpty then page
  else
    match job.rescan with
    | .stop => page.filter fun m => !existingIds.contains m
    | .cont => page.filter fun m => !existingIds.contains m
    | .update => page

/-- Whether the run sets `stopped_on_duplicate`: only `stop` mode (the
default for unknown modes behaves the same) with at least one
already-stored id in the page. -/
def stoppedOnDuplicate (env : ScanEnv) (job : BatchScanJob) (page : List Nat) : Bool :=
  let existingIds := page.filter fun m => env.existingMessageIds.contains m
  if existingIds.isEmpty then false
  else
    match job.rescan with
    | .stop => (scanMessagesToProcess env job page).length < page.length
    | .cont => false
    | .update => false

/-- Result of one `process_batch_scan` run: the final scan-status row, the
continuation jobs pushed to the queue, and whether the exception handler
re-raised. -/
structure BatchScanOutcome where
  finalRow : ChannelScanStatusRow
  enqueuedJobs : List BatchScanJob
  raised : Bool
deriving DecidableEq

/-- Embedding of `JobProcessor.process_batch_scan`.  `st0` is the row
`get_or_create_scan_status` returns at the start (also the snapshot the
first-scan check reads). -/
def process_batch_scan (env : ScanEnv) (job : BatchScanJob) (st0 : ChannelScanStatusRow) :
    BatchScanOutcome :=
  if !env.scanEnabled then
    { finalRow := update_scan_status st0 (some .cancelled) none none none none
        true (some env.disabledReason)
      enqueuedJobs := []
      raised := false }
  else
    let st1 := update_scan_status st0 (some .running) none none none none true none
    match env.fetchResult with
    | .error msg =>
      { finalRow := update_scan_status st1 (some .failed) none none none none true (some msg)
        enqueuedJobs := []
        raised := false }
    | .ok page =>
      let toProcess := scanMessagesToProcess env job page
      let stopped := stoppedOnDuplicate env job page
      if !env.batchOk then
        { finalRow := update_scan_status st1 (some .failed) none none none none
            true (some "batch processing error")
          enqueuedJobs := []
          raised := true }
      else
        let st2 := increment_scan_counts st1 toProcess.length env.clipsFound
        let isFirstScan := st0.forwardMessageId.isNone && st0.backwardMessageId.isNone
        let step :=
          match page with
          | [] => (st2, false, (none : Option Nat))
          | m0 :: rest =>
            match job.direction with
            | .backward =>
              let oldestMessageId := (m0 :: rest).getLastD m0
              let newestMessageId := m0
              let st3 :=
                if isFirstScan then
                  update_scan_status st2 none (some newestMessageId) (some oldestMessageId)
                    none none false none
                else
                  update_scan_status st2 none none (some oldestMessageId) none none false none
              (st3, decide (job.limit ≤ page.length) && !stopped, some oldestMessageId)
            | .forward =>
              let newestMessageId := (m0 :: rest).getLastD m0
              let oldestMessageId := m0
              let st3 :=
                if isFirstScan then
                  update_scan_status st2 none (some newestMessageId) (some oldestMessageId)
                    none none false none
                else
                  update_scan_status st2 none (some newestMessageId) none none none false none
              (st3, decide (job.limit ≤ page.length) && !stopped, some newestMessageId)
        match step with
        | (st3, continuationNeeded, edge) =>
          if continuationNeeded && job.autoContinue && env.hasRedisClient then
            { finalRow := update_scan_status st3 (some .running) none none none none true none
              enqueuedJobs :=
                [{ direction := job.direction
                   limit := job.limit
                   beforeMessageId :=
                     match job.direction with
                     | .backward => edge
                     | .forward => job.beforeMessageId
                   afterMessageId :=
                     match job.direction with
                     | .forward => edge
                     | .backward => job.afterMessageId
                   autoContinue := true
                   rescan := job.rescan }]
              raised := false }
          else
            { finalRow := update_scan_status st3 (some .succeeded) none none none none true none
              enqueuedJobs := []
              raised := false }

/-- The newest id of a nonempty history page: a backward page is
newest-first, a forward page oldest-first (0 for an empty page, unused). -/
def pageNewestId (dir : ScanDirection) (page : List Nat) : Nat :=
  match dir, page with
  | _, [] => 0
  | .backward, m0 :: _ => m0
  | .forward, m0 :: rest => (m0 :: rest).getLastD m0

/-- The oldest id of a nonempty history page (0 for an empty page, unused). -/
def pageOldestId (dir : ScanDirection) (page : List Nat) : Nat :=
  match dir, page with
  | _, [] => 0
  | .backward, m0 :: rest => (m0 :: rest).getLastD m0
  | .forward, m0 :: _ => m0

/-- Concrete environment for the scan-scheduler witnesses: a successful
full-page backward fetch of ids `[30, 20, 10]` with no stored messages. -/
def c1Env : ScanEnv :=
  { scanEnabled := true
    disabledReason := ""
    fetchResult := Except.ok [30, 20, 10]
    existingMessageIds := []
    batchOk := true
    clipsFound := 2
    hasRedisClient := true }

/-- Concrete job for the scan-scheduler witnesses. -/
def c1Job : BatchScanJob :=
  { direction := .backward
    limit := 3
    beforeMessageId := none
    afterMessageId := none
    autoContinue := true
    rescan := .stop }

/-- Concrete fresh scan-status row (both boundaries null). -/
def c1Row : ChannelScanStatusRow :=
  { status := .queued
    forwardMessageId := none
    backwardMessageId := none
    messageCount := 0
    totalMessagesScanned := 0
    errorMessage := none }

/-- Concrete clip state with no prior `FailedThumbnail` row, for the
first-failure witness. -/
def cexThumbState : ClipThumbState :=
  { thumbnailStatus := "pending", failedRow := none }

/-! ### Helper lemmas and claim theorems -/

theorem leBytes_length (n value : Nat) : (leBytes n value).length = n := by
  induction n generalizing value with
  | zero => rfl
  | succ k ih => simp [leBytes, ih]

theorem md5Bytes_length (msg : List Nat) : (md5Bytes msg).length = 16 := by
  unfold md5Bytes
  rcases (chunks64 (md5Pad msg)).foldl (fun st blk => md5Block st (leWords blk))
      (0x67452301, 0xefcdab89, 0x98badcfe, 0x10325476) with ⟨a, b, c, d⟩
  simp [leBytes_length]

theorem bytesToHex_length (bs : List Nat) : (bytesToHex bs).length = 2 * bs.length := by
  unfold bytesToHex
  induction bs with
  | nil => rfl
  | cons b t ih =>
    simp only [List.flatMap_cons, String.length, String.mk] at ih ⊢
    simp only [List.length_append, List.length_cons, List.length_nil, ih]
    omega

theorem md5Hex_length (msg : List Nat) : (md5Hex msg).length = 32 := by
  unfold md5Hex
  rw [bytesToHex_length, md5Bytes_length]

theorem hexDigitChar_mem (n : Nat) (h : n < 16) : hexDigitChar n ∈ hexAlphabet := by
  interval_cases n <;> decide

theorem bytesToHex_mem (bs : List Nat) (c : Char) (hc : c ∈ (bytesToHex bs).data) :
    c ∈ hexAlphabet := by
  unfold bytesToHex at hc
  simp only [String.mk, List.mem_flatMap] at hc
  obtain ⟨b, _, hb⟩ := hc
  simp only [List.mem_cons, List.not_mem_nil, or_false] at hb
  rcases hb with h | h <;>
    exact h ▸ hexDigitChar_mem _ (Nat.mod_lt _ (by omega))

/-- C3: whenever thumbnail processing fails, the clip's `thumbnail_status`
becomes `failed` and the upserted `FailedThumbnail` row has `retry_count`
one more than before (1 when there was no row), `next_retry_at =
now + backoff(retry_count)` for the clamped table `[5m, 15m, 1h, 4h, 12h,
24h]`, and on the first recorded failure `next_retry_at = now + 5
minutes`. -/
theorem process_clip_failure_backoff (now : Int) (err : String) (st : ClipThumbState) :
    (processClip now (.failure err) st).1 = false ∧
    (processClip now (.failure err) st).2.thumbnailStatus = "failed" ∧
    ∃ r, (processClip now (.failure err) st).2.failedRow = some r ∧
      r.retryCount = (match st.failedRow with
        | some existing => existing.retryCount + 1
        | none => 1) ∧
      r.nextRetryAt = now + backoffSeconds r.retryCount ∧
      (st.failedRow = none → r.retryCount = 1 ∧ r.nextRetryAt = now + 300) ∧
      r.errorMessage = err ∧ r.lastAttemptedAt = now := by
  refine ⟨rfl, rfl, recordFailure now err st.failedRow, rfl, ?_, ?_, ?_, ?_⟩
  · cases st.failedRow with
    | none => rfl
    | some existing => rfl
  · cases st.failedRow with
    | none => rfl
    | some existing => rfl
  · intro h
    rw [h]
    exact ⟨rfl, rfl⟩
  · cases st.failedRow <;> exact ⟨rfl, rfl⟩

/-- Witness for `process_clip_failure_backoff`: a concrete first failure at
`now = 5000` yields status `failed` and a row with `retry_count = 1` and
`next_retry_at = 5300 = now + 5` minutes. -/
theorem process_clip_failure_backoff_witness :
    (processClip 5000 (ThumbOutcome.failure "probe failed") cexThumbState).1 = false ∧
    (processClip 5000 (ThumbOutcome.failure "probe failed")
        cexThumbState).2.thumbnailStatus = "failed" ∧
    (processClip 5000 (ThumbOutcome.failure "probe failed") cexThumbState).2.failedRow
      = some { errorMessage := "probe failed", retryCount := 1,
               lastAttemptedAt := 5000, nextRetryAt := 5300 } := by
  have h := process_clip_failure_backoff 5000 "probe failed" cexThumbState
  obtain ⟨h1, h2, r, hr, hrc, hnext, hfirst, herr, hlast⟩ := h
  obtain ⟨hrc1, hnext1⟩ := hfirst rfl
  refine ⟨h1, h2, ?_⟩
  rw [hr]
  rcases r with ⟨e, rc, la, nr⟩
  simp only at hrc1 hnext1 herr hlast
  rw [herr, hrc1, hnext1, hlast]
  norm_num

/-- C4 (amended): `extract_cdn_expiry` returns the decoded `ex` timestamp
exactly when it hex-parses AND lies in the aware-`datetime` range
(years 1..9999); for a missing `ex` parameter, a failed hex parse, or an
out-of-range value it returns `now + 24h`. -/
theorem extract_cdn_expiry_spec (url : String) (now : Int) :
    extract_cdn_expiry url now =
      match exTimestamp url with
      | some ts => if datetimeMinTs ≤ ts ∧ ts ≤ datetimeMaxTs then ts else now + 86400
      | none => now + 86400 := by
  unfold extract_cdn_expiry exTimestamp fromtimestampUTC
  cases firstParam (urlQuery url.data) ['e', 'x'] with
  | none => rfl
  | some v =>
    simp only [Option.some_bind]
    cases pyIntHex v with
    | none => rfl
    | some ts =>
      by_cases hP : datetimeMinTs ≤ ts ∧ ts ≤ datetimeMaxTs <;> simp [hP]

/-- C4 counterexample: in `?ex=fffffffffff` the `ex` value parses as the
hexadecimal integer 17592186044415, yet `extract_cdn_expiry` (here with
`now = 0`) returns the fallback 86400 = now + 24h, not that timestamp,
because `datetime.fromtimestamp` rejects year 559444. -/
theorem extract_cdn_expiry_claim_counterexample :
    exTimestamp "https://c.d/a.mp4?ex=fffffffffff" = some 17592186044415 ∧
    extract_cdn_expiry "https://c.d/a.mp4?ex=fffffffffff" 0 = 86400 ∧
    (86400 : Int) ≠ 17592186044415 :=
  ⟨by decide, by decide, by decide⟩

/-- C7 counterexample: a clip whose prior state has `thumbnail_status =
"failed"` and an existing `FailedThumbnail` row, processed successfully on
the direct path (`process_clip` called from the batch processor, not from
`retry_failed_thumbnails`): the run returns `True` yet the row remains. -/
theorem process_clip_success_keeps_row_counterexample :
    (processClip 1000 .success
        { thumbnailStatus := "failed",
          failedRow := some { errorMessage := "boom", retryCount := 1,
                              lastAttemptedAt := 700, nextRetryAt := 1000 } }).1 = true ∧
    (processClip 1000 .success
        { thumbnailStatus := "failed",
          failedRow := some { errorMessage := "boom", retryCount := 1,
                              lastAttemptedAt := 700, nextRetryAt := 1000 } }).2.failedRow ≠
      none := by
  exact ⟨rfl, by decide⟩

/-- C7 (amended): on the retry path (`retry_failed_thumbnails`), whenever
`process_clip` reports success the `FailedThumbnail` row is deleted: no row
remains afterwards. -/
theorem retry_success_deletes_row (now : Int) (outcome : ThumbOutcome) (st : ClipThumbState)
    (h : (processClip now outcome st).1 = true) :
    (retryFailedThumbnail now outcome st).failedRow = none := by
  unfold retryFailedThumbnail
  cases outcome with
  | alreadyDone => rfl
  | success => rfl
  | failure err => exact absurd h (by simp [processClip])

/-- Witness for `retry_success_deletes_row` at a concrete state. -/
theorem retry_success_deletes_row_witness :
    (retryFailedThumbnail 2000 .success
        { thumbnailStatus := "failed",
          failedRow := some { errorMessage := "boom", retryCount := 2,
                              lastAttemptedAt := 700, nextRetryAt := 1900 } }).failedRow = none :=
  retry_success_deletes_row 2000 .success _ (by decide)

/-- C10: the two embedded clip-fingerprint implementations agree — for every
input they return the same string, equal to the md5 hex digest of
`message_id:channel_id:filename:timestamp.isoformat()`, and that string has
exactly 32 characters, all lowercase hex digits. -/
theorem clip_id_implementations_agree
    (messageId channelId filename : String) (t : PyDatetime) :
    generate_clip_id messageId channelId filename t
        = MessageHandler_generate_clip_id messageId channelId filename t
    ∧ generate_clip_id messageId channelId filename t
        = md5Hex (utf8Encode
            (messageId ++ ":" ++ channelId ++ ":" ++ filename ++ ":" ++ t.isoformat))
    ∧ (generate_clip_id messageId channelId filename t).length = 32
    ∧ ∀ c ∈ (generate_clip_id messageId channelId filename t).data, c ∈ hexAlphabet :=
  ⟨rfl, rfl, md5Hex_length _, fun c hc => bytesToHex_mem _ c hc⟩

theorem dictGet_append (a b : SettingsDict) (k : String) :
    dictGet (a ++ b) k = (dictGet b k).or (dictGet a k) := by
  unfold dictGet
  rw [List.reverse_append, List.find?_append]
  cases List.find? (fun p => p.1 == k) b.reverse <;> simp

theorem mkResolvedSettings_system_layer (rest : SettingsDict) :
    mkResolvedSettings (systemDefaultsDict ++ rest) = mkResolvedSettings rest := by
  unfold mkResolvedSettings
  simp only [dictGet_append]
  have e1 : dictGet systemDefaultsDict "allowed_mime_types"
      = some (.vStrList systemDefaultMimeTypes) := by decide
  have e2 : dictGet systemDefaultsDict "match_regex" = some .vNone := by decide
  have e3 : dictGet systemDefaultsDict "enable_message_content_storage"
      = some (.vBool true) := by decide
  rw [e1, e2, e3]
  cases dictGet rest "allowed_mime_types" <;>
    cases dictGet rest "match_regex" <;>
      cases dictGet rest "enable_message_content_storage" <;> rfl

/-- C6 (amended): the effective settings returned by `get_channel_settings`
are the left-to-right shallow merge of the three layers `system_defaults ⊕
guild.default_channel_settings ⊕ channel.settings`; the `guild.settings`
layer is never consulted. -/
theorem get_channel_settings_is_three_layer_merge
    (gd gs cs : Option SettingsDict) :
    get_channel_settings gd gs cs = specThreeLayerSettings gd cs := by
  unfold get_channel_settings specThreeLayerSettings dictUpdate
  cases gd <;> cases cs <;>
    simp only [Option.getD_some, Option.getD_none, List.append_nil, List.nil_append] <;>
    exact (mkResolvedSettings_system_layer _).symm

/-- C6 counterexample: with empty `guild.default_channel_settings` and
`channel.settings` and `guild.settings = {"match_regex": "clip"}`, the
claimed four-layer merge yields `match_regex = "clip"` but
`get_channel_settings` yields no regex — the `guild.settings` layer is
ignored by the code. -/
theorem get_channel_settings_ignores_guild_settings :
    get_channel_settings (some []) (some [("match_regex", .vStr "clip")]) (some []) ≠
      specFourLayerSettings (some []) (some [("match_regex", .vStr "clip")]) (some []) ∧
    (get_channel_settings (some []) (some [("match_regex", .vStr "clip")]) (some [])).matchRegex
      = none ∧
    (specFourLayerSettings (some []) (some [("match_regex", .vStr "clip")])
        (some [])).matchRegex = some "clip" := by
  refine ⟨by decide, by decide, by decide⟩

theorem callAddClip_raises : callAddClip = Except.error .typeError := rfl

theorem clips_foldlM_error (c : ClipInfo) (cs : List ClipInfo) (acc : List String) :
    (c :: cs).foldlM (fun acc2 _ => do
        let _ ← callAddClip
        Except.ok acc2) acc = (Except.error .typeError : Except PyError (List String)) := by
  rw [List.foldlM_cons, callAddClip_raises]
  rfl

theorem collectStep_skip {clipMap : List (String × List ClipInfo)} {msg : DiscordMessage}
    (h : (clipMap.find? fun p => p.1 == msg.id) = none) (acc : List String) :
    collectStep clipMap acc msg = Except.ok acc := by
  unfold collectStep
  rw [h]

theorem collectStep_no_clips {clipMap : List (String × List ClipInfo)} {msg : DiscordMessage}
    {mid : String} (h : (clipMap.find? fun p => p.1 == msg.id) = some (mid, []))
    (acc : List String) :
    collectStep clipMap acc msg = Except.ok (acc ++ [msg.id]) := by
  unfold collectStep
  rw [h]
  rfl

theorem collectStep_raises {clipMap : List (String × List ClipInfo)} {msg : DiscordMessage}
    {mid : String} {c : ClipInfo} {cs : List ClipInfo}
    (h : (clipMap.find? fun p => p.1 == msg.id) = some (mid, c :: cs)) (acc : List String) :
    collectStep clipMap acc msg = Except.error .typeError := by
  unfold collectStep
  rw [h]
  exact clips_foldlM_error c cs _

theorem collect_message_data_error (clipMap : List (String × List ClipInfo)) :
    ∀ (messages : List DiscordMessage) (acc : List String),
      hitsAddClip messages clipMap = true →
      messages.foldlM (collectStep clipMap) acc = Except.error .typeError := by
  intro messages
  induction messages with
  | nil => intro acc h; cases h
  | cons m rest ih =>
    intro acc h
    rw [List.foldlM_cons]
    simp only [hitsAddClip, List.any_cons, Bool.or_eq_true] at h
    cases hfind : clipMap.find? fun p => p.1 == m.id with
    | none =>
      rw [collectStep_skip hfind acc]
      rcases h with h | h
      · rw [hfind] at h
        exact Bool.noConfusion h
      · exact ih acc h
    | some entry =>
      rcases entry with ⟨mid, clips⟩
      cases clips with
      | nil =>
        rw [collectStep_no_clips hfind acc]
        rcases h with h | h
        · rw [hfind] at h
          exact Bool.noConfusion h
        · exact ih (acc ++ [m.id]) h
      | cons c cs =>
        rw [collectStep_raises hfind acc]
        rfl

theorem collect_message_data_ok (clipMap : List (String × List ClipInfo)) :
    ∀ (messages : List DiscordMessage) (acc : List String),
      hitsAddClip messages clipMap = false →
      ∃ ids, messages.foldlM (collectStep clipMap) acc
        = (Except.ok ids : Except PyError (List String)) := by
  intro messages
  induction messages with
  | nil => intro acc _; exact ⟨acc, rfl⟩
  | cons m rest ih =>
    intro acc h
    rw [List.foldlM_cons]
    simp only [hitsAddClip, List.any_cons, Bool.or_eq_false_iff] at h
    cases hfind : clipMap.find? fun p => p.1 == m.id with
    | none =>
      rw [collectStep_skip hfind acc]
      exact ih acc h.2
    | some entry =>
      rcases entry with ⟨mid, clips⟩
      cases clips with
      | nil =>
        rw [collectStep_no_clips hfind acc]
        exact ih (acc ++ [m.id]) h.2
      | cons c cs =>
        exfalso
        have h1 := h.1
        rw [hfind] at h1
        exact Bool.noConfusion h1

theorem build_clip_id_map_entry_ne_nil (messages : List DiscordMessage)
    (channelId : String) (settings : ResolvedSettings) (now : Int) :
    ∀ e ∈ build_clip_id_map messages channelId settings now, e.2 ≠ [] := by
  intro e he
  unfold build_clip_id_map at he
  obtain ⟨msg, _, hf⟩ := List.mem_filterMap.mp he
  cases hext : extract_clips_from_message msg channelId settings now with
  | nil => rw [hext] at hf; cases hf
  | cons c cs =>
    rw [hext] at hf
    cases hf
    simp

theorem build_clip_id_map_hits (messages : List DiscordMessage)
    (channelId : String) (settings : ResolvedSettings) (now : Int)
    (h : build_clip_id_map messages channelId settings now ≠ []) :
    hitsAddClip messages (build_clip_id_map messages channelId settings now) = true := by
  set clipMap := build_clip_id_map messages channelId settings now with hcm
  obtain ⟨e, he⟩ := List.exists_mem_of_ne_nil clipMap h
  have he' := he
  rw [hcm] at he'
  unfold build_clip_id_map at he'
  obtain ⟨msg, hmsg, hf⟩ := List.mem_filterMap.mp he'
  have hid : e.1 = msg.id := by
    cases hext : extract_clips_from_message msg channelId settings now with
    | nil => rw [hext] at hf; cases hf
    | cons c cs => rw [hext] at hf; cases hf; rfl
  have hfind : (clipMap.find? fun p => p.1 == msg.id).isSome := by
    rw [List.find?_isSome]
    exact ⟨e, he, by rw [hid]; simp⟩
  obtain ⟨found, hfound⟩ := Option.isSome_iff_exists.mp hfind
  have hmem : found ∈ clipMap := List.mem_of_find?_eq_some hfound
  have hne : found.2 ≠ [] := by
    rw [hcm] at hmem
    exact build_clip_id_map_entry_ne_nil messages channelId settings now found hmem
  unfold hitsAddClip
  rw [List.any_eq_true]
  refine ⟨msg, hmsg, ?_⟩
  rw [hfound]
  rcases found with ⟨fid, fclips⟩
  cases fclips with
  | nil => exact absurd rfl hne
  | cons c cs => rfl

/-- C9: whenever at least one message of the batch passes the
video-attachment filter (nonempty clip map), `process_messages_batch`
raises `TypeError` — `_collect_message_data` calls `BatchContext.add_clip`
with the keyword `author_id`, which `add_clip`'s signature does not accept
— before any author/message/clip bulk upsert executes (the only effect so
far is the bulk load of existing clips); a batch whose clip map is empty
completes without error. -/
theorem process_messages_batch_type_error (messages : List DiscordMessage)
    (channelId : String) (settings : ResolvedSettings) (now : Int) :
    (build_clip_id_map messages channelId settings now ≠ [] →
      process_messages_batch messages channelId settings now
        = ([BatchEffect.loadExistingClips], Except.error .typeError)) ∧
    (build_clip_id_map messages channelId settings now = [] →
      (process_messages_batch messages channelId settings now).2 = Except.ok (0, 0)) := by
  constructor
  · intro h
    have hne : messages ≠ [] := by
      intro hm
      exact h (by rw [hm]; rfl)
    have hhits := build_clip_id_map_hits messages channelId settings now h
    unfold process_messages_batch
    rw [if_neg (by simpa using hne)]
    have herr := collect_message_data_error
      (build_clip_id_map messages channelId settings now) messages [] hhits
    unfold collect_message_data
    simp only [herr]
  · intro h
    cases hm : messages with
    | nil => rfl
    | cons m rest =>
      have hhits : hitsAddClip messages (build_clip_id_map messages channelId settings now)
          = false := by
        rw [h]
        unfold hitsAddClip
        rw [List.any_eq_false]
        intro msg _ hx
        exact Bool.noConfusion hx
      obtain ⟨ids, hids⟩ := collect_message_data_ok
        (build_clip_id_map messages channelId settings now) messages [] hhits
      rw [← hm]
      unfold process_messages_batch
      rw [if_neg (by rw [hm]; simp)]
      unfold collect_message_data
      rw [h] at hids
      simp only [hids, h]
      rfl

/-- Witness for `process_messages_batch_type_error`: a concrete one-message
batch with an mp4 attachment raises `TypeError` with no upsert executed. -/
theorem process_messages_batch_type_error_witness :
    process_messages_batch [cexMessage] "999" cexSettings 0
      = ([BatchEffect.loadExistingClips], Except.error .typeError) :=
  (process_messages_batch_type_error [cexMessage] "999" cexSettings 0).1 (by decide)

/-- C5 (failing input): the concrete message's content does not match the
configured `match_regex` — `matches_regex_filter` is `false` and
`should_process_message` rejects it — yet the batch path's
`build_clip_id_map` still derives exactly one clip from it, because
`process_messages_batch` never consults the regex filter before attachment
extraction. -/
theorem batch_regex_filter_not_applied :
    matches_regex_filter cexMessage cexSettings.matchRegex = false ∧
    should_process_message cexMessage cexSettings = false ∧
    ((build_clip_id_map [cexMessage] "999" cexSettings 0).map fun p => p.2.length).sum = 1 ∧
    (build_clip_id_map [cexMessage] "999" cexSettings 0).length = 1 :=
  ⟨by decide, by decide, by decide, by decide⟩

theorem runClipBatches_eq_flatten (batches : List (List (String × ClipPayload))) :
    ∀ t : ClipTable, runClipBatches t batches = bulk_upsert_clips t batches.flatten := by
  induction batches with
  | nil => intro t; rfl
  | cons b bs ih =>
    intro t
    show runClipBatches (bulk_upsert_clips t b) bs = _
    rw [ih]
    unfold bulk_upsert_clips
    rw [List.flatten_cons, List.foldl_append]

theorem bulk_upsert_clips_lookup (l : List (String × ClipPayload)) :
    ∀ (t : ClipTable) (k : String),
      bulk_upsert_clips t l k =
        match l.reverse.find? fun p => p.1 == k with
        | some p => some p.2
        | none => t k := by
  induction l with
  | nil => intro t k; rfl
  | cons p l ih =>
    intro t k
    show bulk_upsert_clips (upsertClipRow t p) l k = _
    rw [ih]
    rw [List.reverse_cons, List.find?_append]
    cases hf : l.reverse.find? fun q => q.1 == k with
    | some q => rfl
    | none =>
      show upsertClipRow t p k = _
      unfold upsertClipRow
      cases hb : p.1 == k with
      | true =>
        rw [if_pos (eq_of_beq hb).symm]
        have he : (List.find? (fun q => q.1 == k) [p]) = some p := by
          simp [List.find?, hb]
        rw [he]
        rfl
      | false =>
        rw [if_neg (fun he => by rw [he] at hb; simp at hb)]
        have he : (List.find? (fun q => q.1 == k) [p]) = none := by
          simp [List.find?, hb]
        rw [he]
        rfl

/-- C8: for all sequences of `bulk_upsert_clips` calls whose batches
together carry the same set of `(id, payload)` pairs — with one payload per
id — the final clip table is the same regardless of batch boundaries,
order, and retried calls. -/
theorem bulk_upsert_clips_batch_invariant (t : ClipTable)
    (bs1 bs2 : List (List (String × ClipPayload)))
    (hsub1 : ∀ p ∈ bs1.flatten, p ∈ bs2.flatten)
    (hsub2 : ∀ p ∈ bs2.flatten, p ∈ bs1.flatten)
    (hfun : ∀ p ∈ bs1.flatten, ∀ q ∈ bs1.flatten, p.1 = q.1 → p.2 = q.2) :
    runClipBatches t bs1 = runClipBatches t bs2 := by
  funext k
  rw [runClipBatches_eq_flatten, runClipBatches_eq_flatten,
      bulk_upsert_clips_lookup, bulk_upsert_clips_lookup]
  cases h1 : bs1.flatten.reverse.find? fun p => p.1 == k with
  | some p =>
    have hp1 : p ∈ bs1.flatten := List.mem_reverse.mp (List.mem_of_find?_eq_some h1)
    have hbk : (p.1 == k) = true := @List.find?_some _ (fun r => r.1 == k) p _ h1
    have hpk : p.1 = k := eq_of_beq hbk
    have h2s : (bs2.flatten.reverse.find? fun p => p.1 == k).isSome := by
      rw [List.find?_isSome]
      exact ⟨p, List.mem_reverse.mpr (hsub1 p hp1), by rw [hpk]; simp⟩
    obtain ⟨q, hq⟩ := Option.isSome_iff_exists.mp h2s
    rw [hq]
    have hq1 : q ∈ bs1.flatten :=
      hsub2 q (List.mem_reverse.mp (List.mem_of_find?_eq_some hq))
    have hqbk : (q.1 == k) = true := @List.find?_some _ (fun r => r.1 == k) q _ hq
    have hqk : q.1 = k := eq_of_beq hqbk
    show some p.2 = some q.2
    rw [hfun p hp1 q hq1 (by rw [hpk, hqk])]
  | none =>
    cases h2 : bs2.flatten.reverse.find? fun p => p.1 == k with
    | some q =>
      exfalso
      have hq1 : q ∈ bs1.flatten :=
        hsub2 q (List.mem_reverse.mp (List.mem_of_find?_eq_some h2))
      have hq2k : (q.1 == k) = true := @List.find?_some _ (fun r => r.1 == k) q _ h2
      exact List.find?_eq_none.mp h1 q (List.mem_reverse.mpr hq1) hq2k
    | none => rfl

/-- Witness for `bulk_upsert_clips_batch_invariant`: one two-row batch
versus the reordered rows split across batches with one call retried. -/
theorem bulk_upsert_clips_batch_invariant_witness :
    runClipBatches emptyClipTable [[("a", wPayload "a"), ("b", wPayload "b")]]
      = runClipBatches emptyClipTable
          [[("b", wPayload "b")], [("a", wPayload "a")], [("a", wPayload "a")]] :=
  bulk_upsert_clips_batch_invariant emptyClipTable _ _
    (by decide) (by decide) (by decide)

theorem getLast?_cons_eq_getLastD (m0 : Nat) (rest : List Nat) :
    (m0 :: rest).getLast? = some ((m0 :: rest).getLastD m0) := by
  induction rest generalizing m0 with
  | nil => rfl
  | cons b t ih =>
    rw [List.getLast?_cons_cons, List.getLastD_cons]
    exact ih b

/-- C1: on a successfully completing batch scan with `auto_continue` (and a
queue client, as the worker always has, and a positive page size): a full
page not stopped on a duplicate enqueues exactly one continuation job with
the same direction, limit and rescan policy and the cursor moved to the
page edge, leaving the status `running`; a partial page enqueues nothing
and the status becomes `succeeded`. -/
theorem batch_scan_continuation_spec (env : ScanEnv) (job : BatchScanJob)
    (st0 : ChannelScanStatusRow) (page : List Nat)
    (henabled : env.scanEnabled = true)
    (hfetch : env.fetchResult = Except.ok page)
    (hbatch : env.batchOk = true)
    (hauto : job.autoContinue = true)
    (hredis : env.hasRedisClient = true)
    (hlimit : 0 < job.limit) :
    (job.limit ≤ page.length ∧ stoppedOnDuplicate env job page = false →
      (process_batch_scan env job st0).enqueuedJobs =
        [{ direction := job.direction
           limit := job.limit
           beforeMessageId :=
             match job.direction with
             | .backward => page.getLast?
             | .forward => job.beforeMessageId
           afterMessageId :=
             match job.direction with
             | .forward => page.getLast?
             | .backward => job.afterMessageId
           autoContinue := true
           rescan := job.rescan }] ∧
      (process_batch_scan env job st0).finalRow.status = .running) ∧
    (page.length < job.limit →
      (process_batch_scan env job st0).enqueuedJobs = [] ∧
      (process_batch_scan env job st0).finalRow.status = .succeeded) := by
  constructor
  · rintro ⟨hfull, hstop⟩
    have hne : page ≠ [] := by
      intro h
      subst h
      simp only [List.length_nil, Nat.le_zero] at hfull
      omega
    unfold process_batch_scan
    rw [henabled, hfetch, hbatch]
    simp only [Bool.not_true, Bool.false_eq_true, if_false]
    cases page with
    | nil => exact absurd rfl hne
    | cons m0 rest =>
      cases hdir : job.direction with
      | backward =>
        simp only [hstop, hauto, hredis, hfull, decide_True, Bool.not_false,
          Bool.and_true, Bool.true_and, Bool.and_self, if_true,
          getLast?_cons_eq_getLastD]
        split <;> refine ⟨?_, ?_⟩ <;> first | rfl | trivial
      | forward =>
        simp only [hstop, hauto, hredis, hfull, decide_True, Bool.not_false,
          Bool.and_true, Bool.true_and, Bool.and_self, if_true,
          getLast?_cons_eq_getLastD]
        split <;> refine ⟨?_, ?_⟩ <;> first | rfl | trivial
  · intro hless
    have hdec : decide (job.limit ≤ page.length) = false := by
      simp only [decide_eq_false_iff_not]
      omega
    unfold process_batch_scan
    rw [henabled, hfetch, hbatch]
    simp only [Bool.not_true, Bool.false_eq_true, if_false]
    cases page with
    | nil => exact ⟨rfl, rfl⟩
    | cons m0 rest =>
      cases hdir : job.direction with
      | backward =>
        simp only [hdec, Bool.false_and, Bool.and_false, Bool.false_eq_true, if_false]
        split <;> refine ⟨?_, ?_⟩ <;> first | rfl | trivial
      | forward =>
        simp only [hdec, Bool.false_and, Bool.and_false, Bool.false_eq_true, if_false]
        split <;> refine ⟨?_, ?_⟩ <;> first | rfl | trivial

/-- Witness for `batch_scan_continuation_spec`: the concrete full backward
page `[30, 20, 10]` with `limit = 3` enqueues one continuation cursored on
`before_message_id = 10` and leaves the status `running`. -/
theorem batch_scan_continuation_spec_witness :
    (process_batch_scan c1Env c1Job c1Row).enqueuedJobs =
      [{ direction := .backward
         limit := 3
         beforeMessageId := some 10
         afterMessageId := none
         autoContinue := true
         rescan := .stop }] ∧
    (process_batch_scan c1Env c1Job c1Row).finalRow.status = .running := by
  have h := (batch_scan_continuation_spec c1Env c1Job c1Row [30, 20, 10]
    rfl rfl rfl rfl rfl (by decide)).1 ⟨by decide, by decide⟩
  exact ⟨by rw [h.1]; rfl, h.2⟩

theorem pairwise_gt_head_max {m0 : Nat} {rest : List Nat}
    (h : (m0 :: rest).Pairwise (fun a b => a > b)) : ∀ x ∈ m0 :: rest, x ≤ m0 := by
  intro x hx
  rcases List.mem_cons.mp hx with rfl | hx
  · exact le_refl x
  · exact le_of_lt ((List.pairwise_cons.mp h).1 x hx)

theorem pairwise_lt_head_min {m0 : Nat} {rest : List Nat}
    (h : (m0 :: rest).Pairwise (fun a b => a < b)) : ∀ x ∈ m0 :: rest, m0 ≤ x := by
  intro x hx
  rcases List.mem_cons.mp hx with rfl | hx
  · exact le_refl x
  · exact le_of_lt ((List.pairwise_cons.mp h).1 x hx)

theorem pairwise_gt_last_min (rest : List Nat) :
    ∀ (m0 d : Nat), (m0 :: rest).Pairwise (fun a b => a > b) →
      ∀ x ∈ m0 :: rest, (m0 :: rest).getLastD d ≤ x := by
  induction rest with
  | nil =>
    intro m0 d _ x hx
    rcases List.mem_cons.mp hx with rfl | hx
    · exact le_refl x
    · cases hx
  | cons b t ih =>
    intro m0 d h x hx
    rw [List.getLastD_cons]
    have hcons := List.pairwise_cons.mp h
    rcases List.mem_cons.mp hx with hxm | hx
    · rw [hxm]
      have hlast_le_b : (b :: t).getLastD m0 ≤ b :=
        ih b m0 hcons.2 b (List.mem_cons_self b t)
      exact le_trans hlast_le_b (le_of_lt (hcons.1 b (List.mem_cons_self b t)))
    · exact ih b m0 hcons.2 x hx

theorem pairwise_lt_last_max (rest : List Nat) :
    ∀ (m0 d : Nat), (m0 :: rest).Pairwise (fun a b => a < b) →
      ∀ x ∈ m0 :: rest, x ≤ (m0 :: rest).getLastD d := by
  induction rest with
  | nil =>
    intro m0 d _ x hx
    rcases List.mem_cons.mp hx with rfl | hx
    · exact le_refl x
    · cases hx
  | cons b t ih =>
    intro m0 d h x hx
    rw [List.getLastD_cons]
    have hcons := List.pairwise_cons.mp h
    rcases List.mem_cons.mp hx with hxm | hx
    · rw [hxm]
      have hb_le_last : b ≤ (b :: t).getLastD m0 :=
        ih b m0 hcons.2 b (List.mem_cons_self b t)
      exact le_trans (le_of_lt (hcons.1 b (List.mem_cons_self b t))) hb_le_last
    · exact ih b m0 hcons.2 x hx

theorem getLastD_mem (rest : List Nat) :
    ∀ (m0 d : Nat), (m0 :: rest).getLastD d ∈ m0 :: rest := by
  induction rest with
  | nil => intro m0 d; exact List.mem_singleton.mpr rfl
  | cons b t ih =>
    intro m0 d
    rw [List.getLastD_cons]
    exact List.mem_cons_of_mem m0 (ih b m0)

theorem pageNewestId_spec (dir : ScanDirection) (page : List Nat) (hne : page ≠ [])
    (hsorted : match dir with
      | .backward => page.Pairwise (fun a b => a > b)
      | .forward => page.Pairwise (fun a b => a < b)) :
    pageNewestId dir page ∈ page ∧ ∀ x ∈ page, x ≤ pageNewestId dir page := by
  cases page with
  | nil => exact absurd rfl hne
  | cons m0 rest =>
    cases dir with
    | backward =>
      exact ⟨List.mem_cons_self m0 rest, pairwise_gt_head_max hsorted⟩
    | forward =>
      exact ⟨getLastD_mem rest m0 m0, pairwise_lt_last_max rest m0 m0 hsorted⟩

theorem pageOldestId_spec (dir : ScanDirection) (page : List Nat) (hne : page ≠ [])
    (hsorted : match dir with
      | .backward => page.Pairwise (fun a b => a > b)
      | .forward => page.Pairwise (fun a b => a < b)) :
    pageOldestId dir page ∈ page ∧ ∀ x ∈ page, pageOldestId dir page ≤ x := by
  cases page with
  | nil => exact absurd rfl hne
  | cons m0 rest =>
    cases dir with
    | backward =>
      exact ⟨getLastD_mem rest m0 m0, pairwise_gt_last_min rest m0 m0 hsorted⟩
    | forward =>
      exact ⟨List.mem_cons_self m0 rest, pairwise_lt_head_min hsorted⟩

/-- C2: on a successful batch scan of a nonempty, direction-ordered page:
if both boundary cursors were null beforehand (first scan), afterwards
`forward_message_id` is the newest id of the page and
`backward_message_id` the oldest; otherwise only the boundary matching the
scan direction is updated and the opposite boundary is unchanged.
(`pageNewestId_spec`/`pageOldestId_spec` prove these are the page's
maximum and minimum.) -/
theorem batch_scan_boundaries_spec (env : ScanEnv) (job : BatchScanJob)
    (st0 : ChannelScanStatusRow) (page : List Nat)
    (henabled : env.scanEnabled = true)
    (hfetch : env.fetchResult = Except.ok page)
    (hbatch : env.batchOk = true)
    (hne : page ≠ []) :
    (st0.forwardMessageId = none ∧ st0.backwardMessageId = none →
      (process_batch_scan env job st0).finalRow.forwardMessageId
          = some (pageNewestId job.direction page) ∧
      (process_batch_scan env job st0).finalRow.backwardMessageId
          = some (pageOldestId job.direction page)) ∧
    (¬(st0.forwardMessageId = none ∧ st0.backwardMessageId = none) →
      (job.direction = .backward →
        (process_batch_scan env job st0).finalRow.backwardMessageId
            = some (pageOldestId job.direction page) ∧
        (process_batch_scan env job st0).finalRow.forwardMessageId
            = st0.forwardMessageId) ∧
      (job.direction = .forward →
        (process_batch_scan env job st0).finalRow.forwardMessageId
            = some (pageNewestId job.direction page) ∧
        (process_batch_scan env job st0).finalRow.backwardMessageId
            = st0.backwardMessageId)) := by
  constructor
  · rintro ⟨hf, hb⟩
    have hfs : (st0.forwardMessageId.isNone && st0.backwardMessageId.isNone) = true := by
      rw [hf, hb]
      rfl
    unfold process_batch_scan
    rw [henabled, hfetch, hbatch]
    simp only [Bool.not_true, Bool.false_eq_true, if_false]
    cases page with
    | nil => exact absurd rfl hne
    | cons m0 rest =>
      cases hdir : job.direction with
      | backward =>
        simp only [hfs, if_true]
        split <;> exact ⟨rfl, rfl⟩
      | forward =>
        simp only [hfs, if_true]
        split <;> exact ⟨rfl, rfl⟩
  · intro hnot
    have hfs : (st0.forwardMessageId.isNone && st0.backwardMessageId.isNone) = false := by
      cases hf : st0.forwardMessageId <;> cases hb : st0.backwardMessageId <;>
        simp_all
    unfold process_batch_scan
    rw [henabled, hfetch, hbatch]
    simp only [Bool.not_true, Bool.false_eq_true, if_false]
    cases page with
    | nil => exact absurd rfl hne
    | cons m0 rest =>
      cases hdir : job.direction with
      | backward =>
        simp only [hfs, Bool.false_eq_true, if_false]
        constructor
        · intro _
          split <;> exact ⟨rfl, rfl⟩
        · intro hcontra
          exact nomatch hcontra
      | forward =>
        simp only [hfs, Bool.false_eq_true, if_false]
        constructor
        · intro hcontra
          exact nomatch hcontra
        · intro _
          split <;> exact ⟨rfl, rfl⟩

/-- Witness for `batch_scan_boundaries_spec`: the concrete first scan of
the backward page `[30, 20, 10]` sets both boundaries, to its newest and
oldest ids 30 and 10. -/
theorem batch_scan_boundaries_spec_witness :
    (process_batch_scan c1Env c1Job c1Row).finalRow.forwardMessageId
        = some (pageNewestId ScanDirection.backward [30, 20, 10]) ∧
    (process_batch_scan c1Env c1Job c1Row).finalRow.backwardMessageId
        = some (pageOldestId ScanDirection.backward [30, 20, 10]) ∧
    pageNewestId ScanDirection.backward [30, 20, 10] = 30 ∧
    pageOldestId ScanDirection.backward [30, 20, 10] = 10 := by
  have h := (batch_scan_boundaries_spec c1Env c1Job c1Row [30, 20, 10]
    rfl rfl rfl (by decide)).1 ⟨rfl, rfl⟩
  exact ⟨h.1, h.2, by decide, by decide⟩

end ClipSaver
